import Mathlib

/-!
Shallow embedding of the roto-demo particle system (src/main.rs and
src/script_manager.rs): the hot-reload state machine of `ScriptManager::reload`,
the per-tick systems `add_particles` and `update_particles`, the emission queue
`EMITTER`, and the host-exposed `rand` function.

Modelling conventions:
- `f32` values carried by particles and the simulation clock are modelled as `ℚ`;
  the claims under study are structural (list manipulation, state transitions),
  not about rounding.
- `SystemTime` is modelled as `Nat` (comparison is all the code uses).
- The roto script entry points are opaque functions. Since a compiled script can
  call the registered `emit` host function from inside `add` or `update`, the
  side effect on the global `EMITTER` queue is made explicit in their types:
  `add` returns the list of particles it emits (in emission order) and `update`
  returns its optional replacement particle together with the particles it emits.
- Wall-clock instants (`Instant::now()` differences) and the compiler outcome
  (`runtime.compile`) depend on the outside world; they enter the model as
  explicit inputs (`measured_ms`, `compileResult`).
- Console output is modelled by the `ReloadEvents` record describing what a
  `reload` invocation printed and whether it invoked the compiler.
-/

namespace RotoDemo

/-- Vector with three components, from `Vec3` as used by `Particle` (fields x, y, z). -/
structure Vec3 where
  x : ℚ
  y : ℚ
  z : ℚ
deriving DecidableEq, Repr

/-- Color value (RGB plus alpha), from bevy's `Color` as carried by a `Particle`. -/
structure Color where
  r : ℚ
  g : ℚ
  b : ℚ
  a : ℚ
deriving DecidableEq, Repr

/-- The `Particle` struct of src/main.rs: position, scale and color. -/
structure Particle where
  pos : Vec3
  scale : ℚ
  color : Color
deriving DecidableEq, Repr

/-- The `ParticleWithTime` record of src/main.rs: the simulation's internal
particle record, pairing the creation-time clock value with the particle. -/
structure ParticleWithTime where
  start_time : ℚ
  particle : Particle
deriving DecidableEq, Repr

/-- Type of the `update` entry point, `fn(f32, Val<Particle>) -> Option<Val<Particle>>`.
The second component of the result is the list of particles the call pushes onto
the global `EMITTER` queue via the registered `emit` host function (in order). -/
def UpdateFn : Type := ℚ → Particle → Option Particle × List Particle

/-- Type of the `add` entry point, `fn(f32)`. Its only observable effect is the
list of particles it pushes onto the `EMITTER` queue via `emit` (in order). -/
def AddFn : Type := ℚ → List Particle

/-- Result of a successful `runtime.compile`: the compiled package, from which
`get_function("update")` and `get_function("add")` each either succeed with a
typed function or fail (modelled by `Option`). -/
structure Pkg where
  update : Option UpdateFn
  add : Option AddFn

/-- The `ScriptManager` resource (src/main.rs lines 67-77), without the
`runtime` and `path` fields, which are fixed at startup and opaque here. -/
structure ScriptManager where
  last_compile : Nat
  script_not_found_logged : Bool
  update : Option UpdateFn
  update_ms : ℚ
  add : Option AddFn
  add_ms : ℚ

/-- Observable effects of one `ScriptManager::reload` invocation: whether the
"Script not found" diagnostic was printed, whether `runtime.compile` was
invoked, and whether a compile error was printed. -/
structure ReloadEvents where
  script_not_found_printed : Bool
  compiler_invoked : Bool
  compile_error_printed : Bool
deriving DecidableEq, Repr

/-- The `if let Ok(f) = pkg.get_function(name) { binding = Some(f) }` pattern of
`reload`: a successful lookup replaces the binding, a failed lookup leaves the
previous binding in place. -/
def rebind {α : Type} (looked old : Option α) : Option α :=
  match looked with
  | some f => some f
  | none => old

/-- The `ScriptManager::reload` method (src/main.rs lines 195-236).
`modified` is the result of `std::fs::metadata(path).and_then(modified)`
(`none` when the file is unreadable), `now` is `SystemTime::now()`, and
`compileResult` is the outcome `runtime.compile` would produce on the current
file contents (`none` for a compile error). Returns the new manager state and
the events the invocation produced. -/
def ScriptManager.reload (sm : ScriptManager) (now : Nat) (modified : Option Nat)
    (compileResult : Option Pkg) : ScriptManager × ReloadEvents :=
  match modified with
  | none =>
      ({ sm with last_compile := now, script_not_found_logged := true },
       { script_not_found_printed := !sm.script_not_found_logged,
         compiler_invoked := false, compile_error_printed := false })
  | some m =>
      if m < sm.last_compile then
        ({ sm with script_not_found_logged := false },
         { script_not_found_printed := false, compiler_invoked := false,
           compile_error_printed := false })
      else
        match compileResult with
        | none =>
            ({ sm with script_not_found_logged := false, last_compile := now },
             { script_not_found_printed := false, compiler_invoked := true,
               compile_error_printed := true })
        | some pkg =>
            ({ sm with script_not_found_logged := false, last_compile := now,
                       update := rebind pkg.update sm.update,
                       add := rebind pkg.add sm.add },
             { script_not_found_printed := false, compiler_invoked := true,
               compile_error_printed := false })

/-- Iterated `reload` against a file whose metadata stays fixed at `modified`:
each list element supplies that invocation's `SystemTime::now()` and the
compiler outcome it would see. Returns the final state and the event list in
invocation order. -/
def reloadRun (modified : Option Nat) : ScriptManager → List (Nat × Option Pkg) →
    ScriptManager × List ReloadEvents
  | sm, [] => (sm, [])
  | sm, (now, cr) :: rest =>
      let step := sm.reload now modified cr
      let tail := reloadRun modified step.1 rest
      (tail.1, step.2 :: tail.2)

/-- Whole-simulation state touched by the per-tick systems: the `ScriptManager`
resource, the global `EMITTER` queue, and the live `Particles` list. -/
structure SimState where
  manager : ScriptManager
  emitter : List Particle
  particles : List ParticleWithTime

/-- The `add_particles` system (src/main.rs lines 263-294). If an `add` entry
point is bound it is called with the clock and its `emit` calls append to the
queue, and `add_ms` is overwritten with the measured wall-clock cost
(`measured_ms` stands for the `Instant::now()` difference); otherwise nothing
happens (the fallback body is commented out in the source). Then the queue is
drained in order into the live list, stamping each particle with the current
clock. -/
def add_particles (measured_ms clock : ℚ) (s : SimState) : SimState :=
  let afterAdd :=
    match s.manager.add with
    | some add =>
        ({ s.manager with add_ms := measured_ms }, s.emitter ++ add clock)
    | none => (s.manager, s.emitter)
  { manager := afterAdd.1,
    emitter := [],
    particles := s.particles ++
      afterAdd.2.map (fun p => { start_time := clock, particle := p }) }

/-- Contents of the `EMITTER` queue at the moment `add_particles` drains it:
whatever was already queued, followed by what the bound `add` entry point (if
any) emits this tick. -/
def pendingEmissions (clock : ℚ) (s : SimState) : List Particle :=
  s.emitter ++ (match s.manager.add with
    | some add => add clock
    | none => [])

/-- The `retain_mut` loop of `update_particles` (src/main.rs lines 306-317):
walks the live list in order; for each record calls
`update(clock - start_time, particle)`; a `some` result replaces the stored
particle and keeps the record, a `none` result drops it. The second component
collects the particles the calls emit, in call order. -/
def updatePhase (u : UpdateFn) (clock : ℚ) : List ParticleWithTime →
    List ParticleWithTime × List Particle
  | [] => ([], [])
  | p :: rest =>
      let r := u (clock - p.start_time) p.particle
      let tail := updatePhase u clock rest
      match r.1 with
      | some np => ({ p with particle := np } :: tail.1, r.2 ++ tail.2)
      | none => (tail.1, r.2 ++ tail.2)

/-- The `update_particles` system (src/main.rs lines 296-321). When no `update`
entry point is bound it returns immediately; otherwise it runs the
`retain_mut` loop over the live list and overwrites `update_ms` with the
measured wall-clock cost. -/
def update_particles (measured_ms clock : ℚ) (s : SimState) : SimState :=
  match s.manager.update with
  | none => s
  | some u =>
      let r := updatePhase u clock s.particles
      { manager := { s.manager with update_ms := measured_ms },
        emitter := s.emitter ++ r.2,
        particles := r.1 }

/-- Effect of one `retain_mut` step on one record, as a partial map: `some` of
the record with its particle replaced when the update call returns a particle,
`none` when the record is dropped. -/
def updateStep (u : UpdateFn) (clock : ℚ) (p : ParticleWithTime) :
    Option ParticleWithTime :=
  match (u (clock - p.start_time) p.particle).1 with
  | some np => some { p with particle := np }
  | none => none

/-- The record a surviving particle turns into (for a dropped record this is a
dummy identity, never reached by the surviving list). -/
def appliedUpdate (u : UpdateFn) (clock : ℚ) (p : ParticleWithTime) :
    ParticleWithTime :=
  match (u (clock - p.start_time) p.particle).1 with
  | some np => { p with particle := np }
  | none => p

/-- The `rng.random_range(low..high)` sampling performed by the registered
`rand` host function (src/main.rs lines 161-164): the rand crate's uniform
float sampler panics when asked for a value from an empty range (`low >= high`)
and otherwise returns a value in the half-open interval `[low, high)`. The
randomness is made explicit as a unit-interval sample `u`; the panic is
modelled as `Except.error`. -/
def random_range (low high u : ℚ) : Except String ℚ :=
  if low < high then Except.ok (low + u * (high - low))
  else Except.error "cannot sample empty range"

/-- The `rand` function registered in the capability library: it forwards
`low` and `high` to the range sampler with no guard of its own. -/
def rand (low high u : ℚ) : Except String ℚ :=
  random_range low high u

/-!
Concrete fixtures used by witnesses and counterexamples.
-/

/-- A concrete red particle. -/
def particleA : Particle :=
  { pos := { x := 0, y := 0, z := 0 }, scale := 1,
    color := { r := 1, g := 0, b := 0, a := 1 } }

/-- A concrete green particle, distinct from `particleA`. -/
def particleB : Particle :=
  { pos := { x := 2, y := 2, z := 2 }, scale := 1,
    color := { r := 0, g := 1, b := 0, a := 1 } }

/-- Update entry point that keeps every particle unchanged and emits nothing. -/
def keepAll : UpdateFn := fun _ p => (some p, [])

/-- Update entry point from the spec's scenario: keeps a particle while its age
is below 5 seconds, then drops it; emits nothing. -/
def keepWhileYoung : UpdateFn := fun t p => (if t < 5 then some p else none, [])

/-- Update entry point that keeps every particle and calls `emit(particleB)`
once per invocation. -/
def keepAndEmit : UpdateFn := fun _ p => (some p, [particleB])

/-- Add entry point that emits nothing. -/
def addNothing : AddFn := fun _ => []

/-- Add entry point that calls `emit(particleA)` once per invocation. -/
def addOne : AddFn := fun _ => [particleA]

/-- Script manager state with the given last-compile time and bindings, the
not-found flag cleared and zeroed timing counters. -/
def mkManager (lc : Nat) (upd : Option UpdateFn) (ad : Option AddFn) :
    ScriptManager :=
  { last_compile := lc, script_not_found_logged := false,
    update := upd, update_ms := 0, add := ad, add_ms := 0 }

/-- Compiled package defining only `add`. -/
def pkgAddOnly : Pkg := { update := none, add := some addOne }

/-- Compiled package defining only `update`. -/
def pkgUpdateOnly : Pkg := { update := some keepAll, add := none }

/-!
Helper lemmas about `reload`, `reloadRun` and `updatePhase`.
-/

/-- Unreadable file: `reload` stamps `last_compile` with the current time, sets
the logged flag, leaves the bindings alone, and prints the diagnostic exactly
when the flag was not already set. -/
lemma reload_none_eq (sm : ScriptManager) (now : Nat) (cr : Option Pkg) :
    sm.reload now none cr =
      ({ sm with last_compile := now, script_not_found_logged := true },
       { script_not_found_printed := !sm.script_not_found_logged,
         compiler_invoked := false, compile_error_printed := false }) := rfl

/-- Readable file whose modification time is strictly older than
`last_compile`: `reload` only clears the logged flag. -/
lemma reload_skip_eq (sm : ScriptManager) (now : Nat) (cr : Option Pkg)
    (m : Nat) (h : m < sm.last_compile) :
    sm.reload now (some m) cr =
      ({ sm with script_not_found_logged := false },
       { script_not_found_printed := false, compiler_invoked := false,
         compile_error_printed := false }) := by
  simp [ScriptManager.reload, h]

/-- Unfolding of `reloadRun` on a cons input list. -/
lemma reloadRun_cons_eq (modified : Option Nat) (sm : ScriptManager)
    (now : Nat) (cr : Option Pkg) (rest : List (Nat × Option Pkg)) :
    reloadRun modified sm ((now, cr) :: rest) =
      ((reloadRun modified (sm.reload now modified cr).1 rest).1,
       (sm.reload now modified cr).2 ::
         (reloadRun modified (sm.reload now modified cr).1 rest).2) := rfl

/-- Once the not-found flag is set, a run of reloads against a missing file
prints nothing more, keeps the flag set and never touches the bindings. -/
lemma reloadRun_none_silent (inputs : List (Nat × Option Pkg))
    (sm : ScriptManager) (h : sm.script_not_found_logged = true) :
    ((reloadRun none sm inputs).2.countP fun ev => ev.script_not_found_printed)
        = 0 ∧
    (reloadRun none sm inputs).1.script_not_found_logged =
        sm.script_not_found_logged ∧
    (reloadRun none sm inputs).1.update = sm.update ∧
    (reloadRun none sm inputs).1.add = sm.add := by
  induction inputs generalizing sm with
  | nil => simp [reloadRun, h]
  | cons ic rest ih =>
    obtain ⟨now, cr⟩ := ic
    obtain ⟨iha, ihb, ihc, ihd⟩ :=
      ih { sm with last_compile := now, script_not_found_logged := true } rfl
    rw [reloadRun_cons_eq, reload_none_eq]
    refine ⟨?_, ?_, ?_, ?_⟩
    · simp [List.countP_cons, iha, h]
    · simp [ihb, h]
    · simpa using ihc
    · simpa using ihd

/-- The surviving list produced by the `retain_mut` loop is the `filterMap` of
the per-record replace-or-remove step over the input list. -/
lemma updatePhase_fst (u : UpdateFn) (clock : ℚ)
    (ps : List ParticleWithTime) :
    (updatePhase u clock ps).1 = ps.filterMap (updateStep u clock) := by
  induction ps with
  | nil => rfl
  | cons p rest ih =>
    simp only [updatePhase, List.filterMap_cons, updateStep]
    cases h : (u (clock - p.start_time) p.particle).1 <;> simp [h, ih]

/-- The surviving list is a sublist (order-preserving selection) of the list of
per-record results. -/
lemma filterMap_updateStep_sublist (u : UpdateFn) (clock : ℚ)
    (ps : List ParticleWithTime) :
    List.Sublist (ps.filterMap (updateStep u clock))
      (ps.map (appliedUpdate u clock)) := by
  induction ps with
  | nil => simp
  | cons p rest ih =>
    simp only [List.filterMap_cons, List.map_cons]
    cases h : (u (clock - p.start_time) p.particle).1 with
    | none =>
      simp only [updateStep, appliedUpdate, h]
      exact ih.cons _
    | some np =>
      simp only [updateStep, appliedUpdate, h]
      exact ih.cons₂ _

/-!
Claim theorems.
-/

/-- C2 (counterexample): the claim says every particle passed to `emit` during
tick N appears in the live list at the start of tick N's update phase with that
tick's clock as `start_time`. A compiled `update` entry point can itself call
`emit` (the host function is registered for all scripts); such a particle is
emitted during tick N but sits in the `EMITTER` queue when the tick ends, and
is not in the live list at the start of that tick's update phase. Concretely:
with `keepAndEmit` bound as `update` and one live particle, the tick at clock 1
passes `particleB` to `emit`, yet the live list at the start of the update
phase holds only the `particleA` record. -/
theorem c2_counterexample :
    (add_particles 0 1
        { manager := mkManager 0 (some keepAndEmit) none, emitter := [],
          particles := [{ start_time := 0, particle := particleA }] }).particles
      = [{ start_time := 0, particle := particleA }] ∧
    (update_particles 0 1 (add_particles 0 1
        { manager := mkManager 0 (some keepAndEmit) none, emitter := [],
          particles := [{ start_time := 0, particle := particleA }] })).emitter
      = [particleB] ∧
    particleB ≠ particleA := by
  refine ⟨rfl, rfl, by decide⟩

/-- C2 (amended): every particle pending in the emission queue when tick N
drains it — everything emitted since the previous drain, i.e. during tick N's
add phase or during an earlier tick's update phase — is appended to the live
list exactly once, in enqueue (FIFO) order, stamped with tick N's clock as its
`start_time`, and the queue is empty after the drain. -/
theorem c2_drain_fifo (measured_ms clock : ℚ) (s : SimState) :
    (add_particles measured_ms clock s).particles =
      s.particles ++ (pendingEmissions clock s).map
        (fun p => { start_time := clock, particle := p }) ∧
    (add_particles measured_ms clock s).emitter = [] := by
  cases h : s.manager.add <;> simp [add_particles, pendingEmissions, h]

/-- C3: with an `update` entry point bound, the live list after the update
phase is exactly the `filterMap` of the replace-or-remove step: a record
survives to the next tick if and only if `update (clock - start_time) particle`
returned a particle, a returned particle replaces the stored one (keeping
`start_time`), and an absent result removes the record; the phase does nothing
else to the list. -/
theorem c3_replace_or_remove (measured_ms clock : ℚ) (s : SimState)
    (u : UpdateFn) (h : s.manager.update = some u) :
    (update_particles measured_ms clock s).particles =
      s.particles.filterMap (updateStep u clock) := by
  simp [update_particles, h, updatePhase_fst]

/-- C3 witness: `keepWhileYoung` at clock 6 keeps the record aged 3 and removes
the record aged 6. -/
theorem c3_replace_or_remove_witness :
    (update_particles 0 6
        { manager := mkManager 0 (some keepWhileYoung) none, emitter := [],
          particles := [{ start_time := 3, particle := particleA },
                        { start_time := 0, particle := particleB }] }).particles
      = [{ start_time := 3, particle := particleA }] := by
  rw [c3_replace_or_remove 0 6
    { manager := mkManager 0 (some keepWhileYoung) none, emitter := [],
      particles := [{ start_time := 3, particle := particleA },
                    { start_time := 0, particle := particleB }] }
    keepWhileYoung rfl]
  norm_num [updateStep, keepWhileYoung, List.filterMap_cons]

/-- C7: when no `update` entry point is bound, the update phase returns before
touching anything: the whole simulation state — in particular the live list —
is unchanged. -/
theorem c7_unbound_update_noop (measured_ms clock : ℚ) (s : SimState)
    (h : s.manager.update = none) :
    update_particles measured_ms clock s = s := by
  simp [update_particles, h]

/-- C7 witness: the update phase at clock 6 leaves a state with no bound
`update` untouched. -/
theorem c7_unbound_update_noop_witness :
    update_particles 0 6
        { manager := mkManager 0 none none, emitter := [],
          particles := [{ start_time := 0, particle := particleA }] }
      = { manager := mkManager 0 none none, emitter := [],
          particles := [{ start_time := 0, particle := particleA }] } :=
  c7_unbound_update_noop 0 6
    { manager := mkManager 0 none none, emitter := [],
      particles := [{ start_time := 0, particle := particleA }] } rfl

/-- C8: for every tick and every state — any mix of bound and unbound entry
points — each per-phase timing field is overwritten with the fresh measurement
exactly when its own entry point is bound (and hence invoked) that tick, and
retains its previous value when that entry point is unbound; and neither phase
writes the other phase's field. -/
theorem c8_timing_overwrite_iff_bound (measured_ms clock : ℚ) (s : SimState) :
    (add_particles measured_ms clock s).manager.add_ms =
      (if s.manager.add.isSome then measured_ms else s.manager.add_ms) ∧
    (add_particles measured_ms clock s).manager.update_ms =
      s.manager.update_ms ∧
    (update_particles measured_ms clock s).manager.update_ms =
      (if s.manager.update.isSome then measured_ms
       else s.manager.update_ms) ∧
    (update_particles measured_ms clock s).manager.add_ms =
      s.manager.add_ms := by
  refine ⟨?_, ?_, ?_, ?_⟩
  · cases h : s.manager.add <;> simp [add_particles, h]
  · cases h : s.manager.add <;> simp [add_particles, h]
  · cases h : s.manager.update <;> simp [update_particles, h]
  · cases h : s.manager.update <;> simp [update_particles, h]

/-- C10: the drain appends emitted particles at the tail of the live list in
emission order, and the update phase's surviving list is a sublist — an
order-preserving selection — of the per-record updated list, so live-list
order is a stable subsequence of the historical emission order. -/
theorem c10_order_preservation (measured_ms clock : ℚ) (s : SimState)
    (u : UpdateFn) (h : s.manager.update = some u) :
    (add_particles measured_ms clock s).particles =
      s.particles ++ (pendingEmissions clock s).map
        (fun p => { start_time := clock, particle := p }) ∧
    List.Sublist (update_particles measured_ms clock s).particles
      (s.particles.map (appliedUpdate u clock)) := by
  constructor
  · cases ha : s.manager.add <;> simp [add_particles, pendingEmissions, ha]
  · have hps : (update_particles measured_ms clock s).particles =
        s.particles.filterMap (updateStep u clock) := by
      simp [update_particles, h, updatePhase_fst]
    rw [hps]
    exact filterMap_updateStep_sublist u clock s.particles

/-- C10 witness: order preservation at a concrete state with `keepWhileYoung`
bound. -/
theorem c10_order_preservation_witness :
    (add_particles 0 6
        { manager := mkManager 0 (some keepWhileYoung) none, emitter := [],
          particles := [{ start_time := 3, particle := particleA },
                        { start_time := 0, particle := particleB }] }).particles
      = ({ manager := mkManager 0 (some keepWhileYoung) none, emitter := [],
           particles := [{ start_time := 3, particle := particleA },
                         { start_time := 0, particle := particleB }] }
          : SimState).particles ++
        (pendingEmissions 6
          { manager := mkManager 0 (some keepWhileYoung) none, emitter := [],
            particles := [{ start_time := 3, particle := particleA },
                          { start_time := 0, particle := particleB }] }).map
          (fun p => { start_time := 6, particle := p }) ∧
    List.Sublist
      (update_particles 0 6
        { manager := mkManager 0 (some keepWhileYoung) none, emitter := [],
          particles := [{ start_time := 3, particle := particleA },
                        { start_time := 0, particle := particleB }] }).particles
      (({ manager := mkManager 0 (some keepWhileYoung) none, emitter := [],
          particles := [{ start_time := 3, particle := particleA },
                        { start_time := 0, particle := particleB }] }
          : SimState).particles.map (appliedUpdate keepWhileYoung 6)) :=
  c10_order_preservation 0 6
    { manager := mkManager 0 (some keepWhileYoung) none, emitter := [],
      particles := [{ start_time := 3, particle := particleA },
                    { start_time := 0, particle := particleB }] }
    keepWhileYoung rfl

/-- C1 (counterexample): the claim says a reload with the file's modification
time less than or equal to `last_compile` returns without invoking the
compiler. The guard in `reload` is the strict comparison
`last_compile > modified`, so at equality (`modified = last_compile = 5`) the
compiler is invoked and, here, the `add` binding even changes. -/
theorem c1_counterexample :
    (5:Nat) ≤ (mkManager 5 none none).last_compile ∧
    ((mkManager 5 none none).reload 6 (some 5)
        (some pkgAddOnly)).2.compiler_invoked = true ∧
    (mkManager 5 none none).add = none ∧
    ((mkManager 5 none none).reload 6 (some 5) (some pkgAddOnly)).1.add
      = some addOne :=
  ⟨le_rfl, rfl, rfl, rfl⟩

/-- C1 (amended): when the file's modification time is strictly older than the
stored last-compile time, reload skips; consequently any run of reloads
against a file whose modification time stays strictly below the initial
last-compile time invokes the compiler zero times and leaves both entry-point
bindings unchanged. -/
theorem c1_strictly_older_skips (sm : ScriptManager) (m : Nat)
    (inputs : List (Nat × Option Pkg)) (h : m < sm.last_compile) :
    ((reloadRun (some m) sm inputs).2.countP fun ev => ev.compiler_invoked)
        = 0 ∧
    (reloadRun (some m) sm inputs).1.update = sm.update ∧
    (reloadRun (some m) sm inputs).1.add = sm.add := by
  induction inputs generalizing sm with
  | nil => simp [reloadRun]
  | cons ic rest ih =>
    obtain ⟨now, cr⟩ := ic
    obtain ⟨iha, ihb, ihc⟩ := ih { sm with script_not_found_logged := false } h
    rw [reloadRun_cons_eq, reload_skip_eq sm now cr m h]
    refine ⟨?_, ?_, ?_⟩
    · simp [List.countP_cons, iha]
    · simpa using ihb
    · simpa using ihc

/-- C1 witness: two reloads of a file last modified at time 4 with
`last_compile = 5` invoke the compiler zero times and change no binding. -/
theorem c1_strictly_older_skips_witness :
    ((reloadRun (some 4) (mkManager 5 none none)
        [(6, none), (7, some pkgAddOnly)]).2.countP
      fun ev => ev.compiler_invoked) = 0 ∧
    (reloadRun (some 4) (mkManager 5 none none)
        [(6, none), (7, some pkgAddOnly)]).1.update
      = (mkManager 5 none none).update ∧
    (reloadRun (some 4) (mkManager 5 none none)
        [(6, none), (7, some pkgAddOnly)]).1.add
      = (mkManager 5 none none).add :=
  c1_strictly_older_skips (mkManager 5 none none) 4
    [(6, none), (7, some pkgAddOnly)] (by decide)

/-- C4 (counterexample): the claim says that after compiling a script defining
only `add`, the `update` entry point is left unbound. The lookup pattern
`if let Ok(f) = pkg.get_function(..)` leaves a failed lookup's binding
untouched, so a previously bound `update` stays bound. -/
theorem c4_counterexample :
    pkgAddOnly.update = none ∧
    ((mkManager 3 (some keepAll) none).reload 7 (some 6)
        (some pkgAddOnly)).1.update = some keepAll :=
  ⟨rfl, rfl⟩

/-- C4 (amended): after a successful compilation of a script defining only
`add` (respectively only `update`), the defined entry point is rebound and the
other binding is left unchanged — hence still unbound when it was never
previously bound; a missing entry-point name is never an error (the reload
returns normally, as these equations show). -/
theorem c4_entry_points_independent (sm : ScriptManager) (now m : Nat)
    (pkgA pkgU : Pkg) (a : AddFn) (u : UpdateFn)
    (h : ¬ m < sm.last_compile)
    (hA1 : pkgA.update = none) (hA2 : pkgA.add = some a)
    (hU1 : pkgU.update = some u) (hU2 : pkgU.add = none) :
    (sm.reload now (some m) (some pkgA)).1.add = some a ∧
    (sm.reload now (some m) (some pkgA)).1.update = sm.update ∧
    (sm.reload now (some m) (some pkgU)).1.update = some u ∧
    (sm.reload now (some m) (some pkgU)).1.add = sm.add := by
  refine ⟨?_, ?_, ?_, ?_⟩ <;>
    simp [ScriptManager.reload, h, rebind, hA1, hA2, hU1, hU2]

/-- C4 witness: compiling an add-only and an update-only package over a
fresh manager (no bindings) binds exactly the defined entry point. -/
theorem c4_entry_points_independent_witness :
    ((mkManager 3 none none).reload 7 (some 6) (some pkgAddOnly)).1.add
      = some addOne ∧
    ((mkManager 3 none none).reload 7 (some 6) (some pkgAddOnly)).1.update
      = (mkManager 3 none none).update ∧
    ((mkManager 3 none none).reload 7 (some 6) (some pkgUpdateOnly)).1.update
      = some keepAll ∧
    ((mkManager 3 none none).reload 7 (some 6) (some pkgUpdateOnly)).1.add
      = (mkManager 3 none none).add :=
  c4_entry_points_independent (mkManager 3 none none) 7 6 pkgAddOnly
    pkgUpdateOnly addOne keepAll (by decide) rfl rfl rfl rfl

/-- C5: when the compiler returns an error, reload prints the error and
returns with the previous state except for the cleared not-found flag and the
refreshed `last_compile` stamp: both entry-point bindings (and everything else
in the manager) are unchanged, and the function returns normally — compile
failure is never fatal. -/
theorem c5_compile_error_nonfatal (sm : ScriptManager) (now m : Nat)
    (h : ¬ m < sm.last_compile) :
    sm.reload now (some m) none =
      ({ sm with script_not_found_logged := false, last_compile := now },
       { script_not_found_printed := false, compiler_invoked := true,
         compile_error_printed := true }) := by
  simp [ScriptManager.reload, h]

/-- C5 witness: a failing compile over a manager with both entry points bound
keeps both bindings. -/
theorem c5_compile_error_nonfatal_witness :
    (mkManager 3 (some keepAll) (some addOne)).reload 7 (some 6) none =
      ({ mkManager 3 (some keepAll) (some addOne) with
           script_not_found_logged := false, last_compile := 7 },
       { script_not_found_printed := false, compiler_invoked := true,
         compile_error_printed := true }) :=
  c5_compile_error_nonfatal (mkManager 3 (some keepAll) (some addOne)) 7 6
    (by decide)

/-- C6: over any nonempty run of reloads with the script file unreadable,
starting outside the missing-file state, exactly one "script not found"
diagnostic is printed, and it is printed by the first invocation of the run;
no invocation touches the entry-point bindings; every unreadable reload stamps
`last_compile` with its current time; and any reload that finds the file
readable clears the logged flag, re-arming the diagnostic. -/
theorem c6_missing_file_edge_reporting (sm : ScriptManager)
    (inputs : List (Nat × Option Pkg))
    (h0 : sm.script_not_found_logged = false) (hne : inputs ≠ []) :
    ((reloadRun none sm inputs).2.countP
        fun ev => ev.script_not_found_printed) = 1 ∧
    ((reloadRun none sm inputs).2.head?.map
        fun ev => ev.script_not_found_printed) = some true ∧
    (reloadRun none sm inputs).1.update = sm.update ∧
    (reloadRun none sm inputs).1.add = sm.add ∧
    (reloadRun none sm inputs).1.script_not_found_logged = true ∧
    (∀ sm2 : ScriptManager, ∀ now : Nat, ∀ cr : Option Pkg,
      (sm2.reload now none cr).1.last_compile = now) ∧
    (∀ sm2 : ScriptManager, ∀ now m : Nat, ∀ cr : Option Pkg,
      (sm2.reload now (some m) cr).1.script_not_found_logged = false) := by
  cases inputs with
  | nil => exact absurd rfl hne
  | cons ic rest =>
    obtain ⟨now, cr⟩ := ic
    obtain ⟨ra, rb, rc, rd⟩ := reloadRun_none_silent rest
      { sm with last_compile := now, script_not_found_logged := true } rfl
    rw [reloadRun_cons_eq, reload_none_eq]
    refine ⟨?_, ?_, ?_, ?_, ?_, ?_, ?_⟩
    · simp [List.countP_cons, h0, ra]
    · simp [h0]
    · simpa using rc
    · simpa using rd
    · simpa using rb
    · intro sm2 now2 cr2
      rfl
    · intro sm2 now2 m2 cr2
      by_cases hlt : m2 < sm2.last_compile
      · simp [ScriptManager.reload, hlt]
      · cases cr2 <;> simp [ScriptManager.reload, hlt]

/-- C6 witness: two reloads against a missing file print the diagnostic once
(on the first), keep both bindings, and set the flag; a later readable reload
clears it. -/
theorem c6_missing_file_edge_reporting_witness :
    ((reloadRun none (mkManager 3 (some keepAll) (some addOne))
        [(6, none), (7, none)]).2.countP
      fun ev => ev.script_not_found_printed) = 1 ∧
    ((reloadRun none (mkManager 3 (some keepAll) (some addOne))
        [(6, none), (7, none)]).2.head?.map
      fun ev => ev.script_not_found_printed) = some true ∧
    (reloadRun none (mkManager 3 (some keepAll) (some addOne))
        [(6, none), (7, none)]).1.update
      = (mkManager 3 (some keepAll) (some addOne)).update ∧
    (reloadRun none (mkManager 3 (some keepAll) (some addOne))
        [(6, none), (7, none)]).1.add
      = (mkManager 3 (some keepAll) (some addOne)).add ∧
    (reloadRun none (mkManager 3 (some keepAll) (some addOne))
        [(6, none), (7, none)]).1.script_not_found_logged = true ∧
    ((mkManager 3 none none).reload 9 none none).1.last_compile = 9 ∧
    ((mkManager 3 none none).reload 9 (some 5)
        none).1.script_not_found_logged = false := by
  obtain ⟨a, b, c, d, e, f, g⟩ :=
    c6_missing_file_edge_reporting (mkManager 3 (some keepAll) (some addOne))
      [(6, none), (7, none)] rfl (List.cons_ne_nil _ _)
  exact ⟨a, b, c, d, e, f (mkManager 3 none none) 9 none,
    g (mkManager 3 none none) 9 5 none⟩

/-- C9: the host-exposed `rand(low, high)` samples uniformly from
`[low, high)` when `low < high` — for any unit-interval sample the returned
value lies in the half-open interval — and for `low >= high` the underlying
range sampling fails (a panic in the host process); nothing guards this
script-reachable input. -/
theorem c9_rand_contract (low high u : ℚ) (h0 : 0 ≤ u) (h1 : u < 1) :
    (low < high →
      rand low high u = Except.ok (low + u * (high - low)) ∧
      low ≤ low + u * (high - low) ∧ low + u * (high - low) < high) ∧
    (high ≤ low → ∃ e, rand low high u = Except.error e) := by
  constructor
  · intro hlt
    refine ⟨?_, ?_, ?_⟩
    · simp [rand, random_range, hlt]
    · have hnn : 0 ≤ u * (high - low) :=
        mul_nonneg h0 (sub_nonneg.mpr hlt.le)
      linarith
    · have hlt2 : u * (high - low) < 1 * (high - low) :=
        mul_lt_mul_of_pos_right h1 (sub_pos.mpr hlt)
      linarith
  · intro hge
    have hnot : ¬ low < high := not_lt.mpr hge
    exact ⟨"cannot sample empty range", by simp [rand, random_range, hnot]⟩

/-- C9 witness: with sample 1/2, `rand 0 1` returns a value in `[0, 1)` and
`rand 1 0` fails. -/
theorem c9_rand_contract_witness :
    (rand 0 1 (1/2) = Except.ok (0 + 1/2 * (1 - 0)) ∧
      (0:ℚ) ≤ 0 + 1/2 * (1 - 0) ∧ (0:ℚ) + 1/2 * (1 - 0) < 1) ∧
    (∃ e, rand 1 0 (1/2) = Except.error e) :=
  ⟨(c9_rand_contract 0 1 (1/2) (by norm_num) (by norm_num)).1 (by norm_num),
   (c9_rand_contract 1 0 (1/2) (by norm_num) (by norm_num)).2 (by norm_num)⟩

end RotoDemo
